import Mathlib

/-!
A verification development for `cmd/System_agent/main.go`, a host-inventory
probe: it parses an os-release descriptor, selects a package backend from the
distribution ID, parses the package-query output into package records, reads
the declared configuration files best-effort, and prints a JSON snapshot.

The Go program is shallowly embedded: external effects (reading the
descriptor, running the package query, reading/stat-ing files, JSON
marshalling) are oracles passed as parameters; string functions from Go's
standard library are modelled structurally over character lists (every
separator the program uses is a single character). The filesystem oracles are
indexed by an invocation counter so that distinct reads of the same path are
distinguishable.
-/

/-- Model of Go `strings.Split(s, sep)` for a one-character separator,
working on a character list: `acc` holds the current field reversed. -/
def splitCharAux (sep : Char) : List Char → List Char → List (List Char)
  | [], acc => [acc.reverse]
  | c :: cs, acc =>
      if c = sep then acc.reverse :: splitCharAux sep cs []
      else splitCharAux sep cs (c :: acc)

/-- Model of Go `strings.Split(s, sep)` for a one-character separator.
`goSplit sep ""` is `[""]`, like Go's `strings.Split`. -/
def goSplit (sep : Char) (s : String) : List String :=
  (splitCharAux sep s.data []).map String.mk

/-- Split a character list at the first occurrence of `sep`, if any. -/
def breakOnChar (sep : Char) : List Char → Option (List Char × List Char)
  | [] => none
  | c :: cs =>
      if c = sep then some ([], cs)
      else (breakOnChar sep cs).map (fun p => (c :: p.1, p.2))

/-- Model of Go `strings.SplitN(s, sep, 2)` for a one-character separator:
one part when `sep` does not occur, otherwise the text before the first
occurrence and the remainder after it. -/
def goSplitN2 (sep : Char) (s : String) : List String :=
  match breakOnChar sep s.data with
  | none => [s]
  | some (a, b) => [String.mk a, String.mk b]

/-- Model of Go `strings.Trim(s, "\"")`: remove all leading and trailing
double-quote characters. -/
def trimQuotes (s : String) : String :=
  String.mk (((s.data.dropWhile fun c => c = '"').reverse.dropWhile fun c => c = '"').reverse)

/-- Model of Go `strings.ToLower` (the program only ever compares against
ASCII tokens; `Char.toLower` lowercases exactly the ASCII uppercase range). -/
def strToLower (s : String) : String :=
  String.mk (s.data.map Char.toLower)

/-- `startsWithList needle hay`: `hay` begins with `needle`. -/
def startsWithList : List Char → List Char → Bool
  | [], _ => true
  | _ :: _, [] => false
  | a :: as, b :: bs => a == b && startsWithList as bs

/-- `occursIn needle hay`: `needle` occurs contiguously inside `hay`. -/
def occursIn (needle : List Char) : List Char → Bool
  | [] => needle.isEmpty
  | c :: cs => startsWithList needle (c :: cs) || occursIn needle cs

/-- Model of Go `strings.Contains(s, sub)`. -/
def goContains (s sub : String) : Bool :=
  occursIn sub.data s.data

/-- One iteration of `NewOSDetector`'s parsing loop (main.go:46-53): split
the line on the first `=`; when that yields two parts, store the value under
the key with surrounding quotes trimmed from both (later insertions
overwrite earlier ones, as in a Go map); otherwise leave the map unchanged. -/
def osLineStep (m : String → Option String) (line : String) : String → Option String :=
  match goSplitN2 '=' line with
  | [k, v] => fun q => if q = trimQuotes k then some (trimQuotes v) else m q
  | _ => m

/-- Model of `NewOSDetector`'s parsing (main.go:44-53): the descriptor
content is split on newline and each line is processed by `osLineStep`; the
Go map is modelled as a lookup function. The `ioutil.ReadFile` of
`/etc/os-release` is modelled by the caller supplying the content (or
failing). -/
def NewOSDetector (content : String) : String → Option String :=
  (goSplit '\n' content).foldl osLineStep (fun _ => none)

/-- The key/value pair a descriptor line contributes, if any (the per-line
content of `osLineStep`, as data instead of a map update). -/
def osLineKV (line : String) : Option (String × String) :=
  match goSplitN2 '=' line with
  | [k, v] => some (trimQuotes k, trimQuotes v)
  | _ => none

/-- All key/value pairs of a descriptor, in line order. -/
def osEntries (content : String) : List (String × String) :=
  (goSplit '\n' content).filterMap osLineKV

/-- The two package-backend kinds, `pm.pkgType` in main.go:60. -/
inductive PkgType
  | rpm
  | apt
deriving DecidableEq

/-- Model of `NewPackageManager` (main.go:63-71): default `apt`, switched to
`rpm` when the lowercased distribution ID contains `rhel`, `centos` or
`fedora`. -/
def NewPackageManager (osID : String) : PkgType :=
  if goContains (strToLower osID) "rhel" || goContains (strToLower osID) "centos" ||
      goContains (strToLower osID) "fedora" then
    PkgType.rpm
  else
    PkgType.apt

/-- Model of the `Package` struct (main.go:20-25). `requiredPackages` is
declared in the Go struct but never populated. -/
structure Package where
  name : String
  version : String
  configFiles : List String := []
  requiredPackages : List String := []
deriving DecidableEq

/-- One iteration of the parsing loop of
`PackageManager.GetInstalledPackages` (main.go:90-105): skip the line when
empty, split it on tab, keep it only when it has at least two fields, and
when a third field exists split that field on a single space into the config
file list (`requiredPackages` is never populated by the Go code). -/
def parseLineStep (acc : List Package) (line : String) : List Package :=
  if line = "" then acc
  else
    match goSplit '\t' line with
    | name :: version :: rest =>
        acc ++ [{ name := name, version := version,
                  configFiles :=
                    match rest with
                    | [] => []
                    | third :: _ => goSplit ' ' third }]
    | _ => acc

/-- Model of the parsing loop of `PackageManager.GetInstalledPackages`
(main.go:88-107): split the raw query output on newline and process each
line with `parseLineStep`. -/
def parsePackageLines (output : String) : List Package :=
  (goSplit '\n' output).foldl parseLineStep []

/-- The package record a single query-output line yields, if any, following
the specification's wording: empty lines are skipped, each line is split on
tab, lines with fewer than two fields are discarded, and the record has
name = field 1, version = field 2, and config paths = field 3 split on a
single space when a third field is present (zero paths otherwise). -/
def specLineRecord (line : String) : Option Package :=
  if line = "" then none
  else
    match goSplit '\t' line with
    | name :: version :: rest =>
        some { name := name, version := version,
               configFiles :=
                 match rest with
                 | [] => []
                 | third :: _ => goSplit ' ' third }
    | _ => none

/-- Model of `PackageManager.GetInstalledPackages` (main.go:73-108): the
external command (`rpm -qa` or `dpkg-query -W`, chosen by `pm.pkgType`) is an
oracle from the backend kind to its raw output, `none` modelling invocation
failure or a non-zero exit; on failure no package list is produced. -/
def GetInstalledPackages (pm : PkgType) (query : PkgType → Option String) :
    Option (List Package) :=
  match query pm with
  | none => none
  | some output => some (parsePackageLines output)

/-- Join a list of path components with `/` separators. -/
def joinWithSlash : List String → String
  | [] => ""
  | [x] => x
  | x :: y :: rest => x ++ "/" ++ joinWithSlash (y :: rest)

/-- Model of Go `path/filepath.Clean` on Unix: resolve `.` and `..`
components and collapse repeated slashes. -/
def goPathClean (path : String) : String :=
  if path = "" then "."
  else
    let rooted := path.data.head? = some '/'
    let comps := (splitCharAux '/' path.data []).map String.mk
    let stack := comps.foldl
      (fun st comp =>
        if comp = "" || comp = "." then st
        else if comp = ".." then
          match st with
          | [] => if rooted then [] else [".."]
          | top :: rest => if top = ".." then comp :: top :: rest else rest
        else comp :: st)
      []
    let body := joinWithSlash stack.reverse
    if rooted then (if body = "" then "/" else "/" ++ body)
    else (if body = "" then "." else body)

/-- Model of Go `path/filepath.Join(a, b)` on Unix: drop empty elements, join
the rest with `/`, and `Clean` the result; all elements empty yields `""`. -/
def goFilepathJoin (a b : String) : String :=
  match ([a, b].filter fun s => !(s = "")) with
  | [] => ""
  | parts => goPathClean (joinWithSlash parts)

/-- Model of the `ConfigFile` struct (main.go:27-31). -/
structure ConfigFile where
  path : String
  content : String
  modified : String
deriving DecidableEq

/-- Model of `ConfigurationReader.ReadConfigFile` (main.go:119-136):
`readFile` models `ioutil.ReadFile` and `statMod` models
`os.Stat(...).ModTime().String()`, both keyed by the joined full path and
returning `none` on error (the error text is elided); on success the snapshot
is keyed by the original declared path. -/
def ReadConfigFile (readFile statMod : String → Option String) (rootDir p : String) :
    Option ConfigFile :=
  let fullPath := goFilepathJoin rootDir p
  match readFile fullPath with
  | none => none
  | some content =>
      match statMod fullPath with
      | none => none
      | some mt => some { path := p, content := content, modified := mt }

/-- State of the configuration-collection loop of `Agent.GatherSystemInfo`
(main.go:175-185). `time` is a ghost counter of `ReadConfigFile` invocations
(so the filesystem oracles may differ between calls), `attempts` is a ghost
trace of the declared paths passed to `ReadConfigFile`, `configs` is the Go
map (later insertions overwrite earlier ones) and `warnings` the messages
printed for skipped paths. -/
structure CollectState where
  time : Nat
  configs : String → Option ConfigFile
  warnings : List String
  attempts : List String

def initCollectState : CollectState :=
  { time := 0, configs := fun _ => none, warnings := [], attempts := [] }

/-- One iteration of the inner loop of `Agent.GatherSystemInfo`
(main.go:177-184): attempt `ReadConfigFile` with root `/`; on error append a
warning (the `%v` error detail is elided) and skip, on success store the
snapshot under the declared path. -/
def collectStep (readF statF : Nat → String → Option String) (st : CollectState)
    (p : String) : CollectState :=
  match ReadConfigFile (readF st.time) (statF st.time) "/" p with
  | none =>
      { st with time := st.time + 1,
                warnings := st.warnings ++ ["Warning: couldn't read config " ++ p],
                attempts := st.attempts ++ [p] }
  | some c =>
      { st with time := st.time + 1,
                configs := fun q => if q = p then some c else st.configs q,
                attempts := st.attempts ++ [p] }

/-- The configuration-collection double loop of `Agent.GatherSystemInfo`
(main.go:175-185): over packages in order, over each package's declared
config files in order. -/
def collectConfigs (readF statF : Nat → String → Option String)
    (packages : List Package) : CollectState :=
  packages.foldl (fun st pkg => pkg.configFiles.foldl (collectStep readF statF) st)
    initCollectState

/-- Model of the `SystemInfo` struct (main.go:14-18); both Go maps are
modelled as lookup functions. -/
structure SystemInfo where
  osRelease : String → Option String
  packages : List Package
  configurations : String → Option ConfigFile

/-- Model of `Agent.GatherSystemInfo` (main.go:163-189) together with the
`NewAgent` wiring (main.go:146-161): the backend is selected from the parsed
descriptor's `ID` value (Go map lookup of a missing key yields `""`); on
query failure no snapshot is produced; otherwise the packages and collected
configurations are stored. Returns the snapshot (if any) and the warnings
printed during collection. -/
def GatherSystemInfo (osRelease : String → Option String)
    (query : PkgType → Option String) (readF statF : Nat → String → Option String) :
    Option SystemInfo × List String :=
  let pm := NewPackageManager ((osRelease "ID").getD "")
  match GetInstalledPackages pm query with
  | none => (none, [])
  | some pkgs =>
      let st := collectConfigs readF statF pkgs
      (some { osRelease := osRelease, packages := pkgs, configurations := st.configs },
       st.warnings)

/-- Output channels of the process. Every `fmt.Printf`/`fmt.Println` in
main.go writes to standard output; `stderr` exists in the model only so that
"which stream" is expressible. -/
inductive OutChan
  | stdout
  | stderr
deriving DecidableEq

/-- Model of `main` (main.go:191-212): initialization failure or query
failure prints a message and exits 1; otherwise the collection warnings are
printed (in order, during `GatherSystemInfo`), then the snapshot is
serialized by the opaque pure serializer `marshal` (modelling
`json.MarshalIndent`, `none` = marshal error) and printed. The result is the
ordered list of `(channel, message)` writes and the exit code. -/
def runMain (osReleaseContent : Option String) (query : PkgType → Option String)
    (readF statF : Nat → String → Option String)
    (marshal : SystemInfo → Option String) : List (OutChan × String) × Nat :=
  match osReleaseContent with
  | none => ([(OutChan.stdout, "Failed to initialize agent")], 1)
  | some content =>
      let osRelease := NewOSDetector content
      match GatherSystemInfo osRelease query readF statF with
      | (none, _) => ([(OutChan.stdout, "Failed to gather system info")], 1)
      | (some info, warnings) =>
          let warnMsgs := warnings.map (fun w => (OutChan.stdout, w))
          match marshal info with
          | none => (warnMsgs ++ [(OutChan.stdout, "Failed to marshal system info")], 1)
          | some json => (warnMsgs ++ [(OutChan.stdout, json)], 0)

/-! ### Helper lemmas about the collection loop -/

theorem collectStep_time (readF statF : Nat → String → Option String)
    (st : CollectState) (p : String) :
    (collectStep readF statF st p).time = st.time + 1 := by
  cases h : ReadConfigFile (readF st.time) (statF st.time) "/" p <;>
    simp [collectStep, h]

theorem collectStep_attempts (readF statF : Nat → String → Option String)
    (st : CollectState) (p : String) :
    (collectStep readF statF st p).attempts = st.attempts ++ [p] := by
  cases h : ReadConfigFile (readF st.time) (statF st.time) "/" p <;>
    simp [collectStep, h]

theorem collectStep_warnings_mono (readF statF : Nat → String → Option String)
    (st : CollectState) (p : String) (w : String) (hw : w ∈ st.warnings) :
    w ∈ (collectStep readF statF st p).warnings := by
  cases h : ReadConfigFile (readF st.time) (statF st.time) "/" p <;>
    simp [collectStep, h, hw]

theorem foldl_collectStep_time (readF statF : Nat → String → Option String) :
    ∀ (paths : List String) (st : CollectState),
      (paths.foldl (collectStep readF statF) st).time = st.time + paths.length := by
  intro paths
  induction paths with
  | nil => intro st; simp
  | cons p rest ih =>
      intro st
      rw [List.foldl_cons, ih, collectStep_time, List.length_cons]
      omega

theorem foldl_collectStep_attempts (readF statF : Nat → String → Option String) :
    ∀ (paths : List String) (st : CollectState),
      (paths.foldl (collectStep readF statF) st).attempts = st.attempts ++ paths := by
  intro paths
  induction paths with
  | nil => intro st; simp
  | cons p rest ih =>
      intro st
      rw [List.foldl_cons, ih, collectStep_attempts]
      simp

theorem foldl_collectStep_warnings_mono (readF statF : Nat → String → Option String) :
    ∀ (paths : List String) (st : CollectState) (w : String), w ∈ st.warnings →
      w ∈ (paths.foldl (collectStep readF statF) st).warnings := by
  intro paths
  induction paths with
  | nil => intro st w hw; exact hw
  | cons p rest ih =>
      intro st w hw
      rw [List.foldl_cons]
      exact ih _ _ (collectStep_warnings_mono readF statF st p w hw)

theorem foldl_collectStep_configs_not_mem (readF statF : Nat → String → Option String)
    (p : String) :
    ∀ (paths : List String) (st : CollectState), p ∉ paths →
      (paths.foldl (collectStep readF statF) st).configs p = st.configs p := by
  intro paths
  induction paths with
  | nil => intro st _; rfl
  | cons q rest ih =>
      intro st hp
      have hq : ¬ p = q := fun h => hp (h ▸ List.mem_cons_self q rest)
      have hrest : p ∉ rest := fun h => hp (List.mem_cons_of_mem q h)
      rw [List.foldl_cons, ih _ hrest]
      cases h : ReadConfigFile (readF st.time) (statF st.time) "/" q <;>
        simp [collectStep, h, hq]

theorem foldl_collectStep_configs_fail (readF statF : Nat → String → Option String)
    (p : String) (hfail : ∀ t, ReadConfigFile (readF t) (statF t) "/" p = none) :
    ∀ (paths : List String) (st : CollectState),
      (paths.foldl (collectStep readF statF) st).configs p = st.configs p := by
  intro paths
  induction paths with
  | nil => intro st; rfl
  | cons q rest ih =>
      intro st
      rw [List.foldl_cons, ih]
      by_cases hq : p = q
      · subst hq; simp [collectStep, hfail st.time]
      · cases h : ReadConfigFile (readF st.time) (statF st.time) "/" q <;>
          simp [collectStep, h, hq]

theorem foldl_collectStep_warn (readF statF : Nat → String → Option String)
    (p : String) (hfail : ∀ t, ReadConfigFile (readF t) (statF t) "/" p = none) :
    ∀ (paths : List String) (st : CollectState), p ∈ paths →
      ("Warning: couldn't read config " ++ p) ∈
        (paths.foldl (collectStep readF statF) st).warnings := by
  intro paths
  induction paths with
  | nil => intro st h; cases h
  | cons q rest ih =>
      intro st hp
      rw [List.foldl_cons]
      rcases List.mem_cons.mp hp with hq | hrest
      · subst hq
        apply foldl_collectStep_warnings_mono
        simp [collectStep, hfail st.time]
      · exact ih _ hrest

theorem foldl_collectStep_configs_success_preserve
    (readF statF : Nat → String → Option String) (p : String) (c : ConfigFile)
    (hsucc : ∀ t, ReadConfigFile (readF t) (statF t) "/" p = some c) :
    ∀ (paths : List String) (st : CollectState), st.configs p = some c →
      (paths.foldl (collectStep readF statF) st).configs p = some c := by
  intro paths
  induction paths with
  | nil => intro st h; exact h
  | cons q rest ih =>
      intro st hst
      rw [List.foldl_cons]
      apply ih
      by_cases hq : p = q
      · subst hq; simp [collectStep, hsucc st.time]
      · cases h : ReadConfigFile (readF st.time) (statF st.time) "/" q <;>
          simp [collectStep, h, hq, hst]

theorem foldl_collectStep_configs_success_mem
    (readF statF : Nat → String → Option String) (p : String) (c : ConfigFile)
    (hsucc : ∀ t, ReadConfigFile (readF t) (statF t) "/" p = some c) :
    ∀ (paths : List String) (st : CollectState), p ∈ paths →
      (paths.foldl (collectStep readF statF) st).configs p = some c := by
  intro paths
  induction paths with
  | nil => intro st h; cases h
  | cons q rest ih =>
      intro st hp
      rw [List.foldl_cons]
      rcases List.mem_cons.mp hp with hq | hrest
      · subst hq
        apply foldl_collectStep_configs_success_preserve readF statF p c hsucc
        simp [collectStep, hsucc st.time]
      · exact ih _ hrest

theorem foldl_collectStep_configs_some (readF statF : Nat → String → Option String) :
    ∀ (paths : List String) (st : CollectState) (q : String),
      ((paths.foldl (collectStep readF statF) st).configs q).isSome = true →
      q ∈ paths ∨ (st.configs q).isSome = true := by
  intro paths
  induction paths with
  | nil => intro st q h; exact Or.inr h
  | cons p rest ih =>
      intro st q h
      rw [List.foldl_cons] at h
      rcases ih _ q h with hmem | hstep
      · exact Or.inl (List.mem_cons_of_mem p hmem)
      · by_cases hq : q = p
        · exact Or.inl (hq ▸ List.mem_cons_self p rest)
        · right
          cases hr : ReadConfigFile (readF st.time) (statF st.time) "/" p <;>
            simp [collectStep, hr, hq] at hstep <;> exact hstep

theorem foldl_collectStep_congr (readF₁ statF₁ readF₂ statF₂ : Nat → String → Option String) :
    ∀ (paths : List String),
      (∀ q ∈ paths, ∀ t,
        readF₁ t (goFilepathJoin "/" q) = readF₂ t (goFilepathJoin "/" q) ∧
        statF₁ t (goFilepathJoin "/" q) = statF₂ t (goFilepathJoin "/" q)) →
      ∀ st, paths.foldl (collectStep readF₁ statF₁) st =
        paths.foldl (collectStep readF₂ statF₂) st := by
  intro paths
  induction paths with
  | nil => intro _ st; rfl
  | cons p rest ih =>
      intro hagree st
      rw [List.foldl_cons, List.foldl_cons]
      have h := hagree p (List.mem_cons_self p rest) st.time
      have hrc : ReadConfigFile (readF₁ st.time) (statF₁ st.time) "/" p
          = ReadConfigFile (readF₂ st.time) (statF₂ st.time) "/" p := by
        simp only [ReadConfigFile]
        rw [h.1, h.2]
      have hstep : collectStep readF₁ statF₁ st p = collectStep readF₂ statF₂ st p := by
        simp only [collectStep, hrc]
      rw [hstep]
      exact ih (fun q hq t => hagree q (List.mem_cons_of_mem p hq) t) _

theorem collectConfigs_eq_foldl (readF statF : Nat → String → Option String)
    (pkgs : List Package) :
    collectConfigs readF statF pkgs =
      (pkgs.flatMap Package.configFiles).foldl (collectStep readF statF) initCollectState := by
  suffices h : ∀ (l : List Package) (st : CollectState),
      l.foldl (fun st pkg => pkg.configFiles.foldl (collectStep readF statF) st) st =
        (l.flatMap Package.configFiles).foldl (collectStep readF statF) st by
    exact h pkgs initCollectState
  intro l
  induction l with
  | nil => intro st; rfl
  | cons pkg rest ih =>
      intro st
      rw [List.foldl_cons, List.flatMap_cons, List.foldl_append, ih]

/-! ### Helper lemmas about the two line parsers -/

theorem parseLineStep_eq (acc : List Package) (line : String) :
    parseLineStep acc line = acc ++ (specLineRecord line).toList := by
  by_cases h : line = ""
  · simp [parseLineStep, specLineRecord, h]
  · rcases hsp : goSplit '\t' line with _ | ⟨n, rest⟩
    · simp [parseLineStep, specLineRecord, h, hsp]
    · rcases rest with _ | ⟨v, rest2⟩ <;>
        simp [parseLineStep, specLineRecord, h, hsp]

theorem foldl_parseLineStep :
    ∀ (lines : List String) (acc : List Package),
      lines.foldl parseLineStep acc = acc ++ lines.filterMap specLineRecord := by
  intro lines
  induction lines with
  | nil => intro acc; simp
  | cons l rest ih =>
      intro acc
      rw [List.foldl_cons, ih, parseLineStep_eq, List.filterMap_cons]
      cases h : specLineRecord l <;> simp [h]

theorem osLineStep_eq (m : String → Option String) (line : String) :
    osLineStep m line = fun q =>
      match osLineKV line with
      | some kv => if q = kv.1 then some kv.2 else m q
      | none => m q := by
  rcases hsp : goSplitN2 '=' line with _ | ⟨k, _ | ⟨v, _ | ⟨w, rest⟩⟩⟩ <;>
    simp [osLineStep, osLineKV, hsp]

theorem foldl_osLineStep_lookup (k : String) :
    ∀ (lines : List String) (m : String → Option String),
      lines.foldl osLineStep m k =
        match ((lines.filterMap osLineKV).reverse.find? fun e => e.1 == k) with
        | some e => some e.2
        | none => m k := by
  intro lines
  induction lines with
  | nil => intro m; rfl
  | cons line rest ih =>
      intro m
      rw [List.foldl_cons, ih, List.filterMap_cons]
      cases hkv : osLineKV line with
      | none => simp [osLineStep_eq, hkv]
      | some kv =>
          rw [List.reverse_cons, List.find?_append]
          cases hfind : ((rest.filterMap osLineKV).reverse.find? fun e => e.1 == k) with
          | some e => simp [hfind]
          | none =>
              simp only [hfind, Option.none_or]
              by_cases hk : kv.1 = k
              · simp [osLineStep_eq, hkv, List.find?, hk]
              · have hk2 : ¬ k = kv.1 := fun h => hk h.symm
                have hb : (kv.1 == k) = false := beq_eq_false_iff_ne.mpr hk
                simp [osLineStep_eq, hkv, List.find?, hb, hk2]

theorem find?_eq_head_of_filter :
    ∀ (l : List (String × String)) (p : (String × String) → Bool),
      l.find? p = (l.filter p).head? := by
  intro l p
  induction l with
  | nil => rfl
  | cons a t ih =>
      by_cases hp : p a = true
      · rw [List.find?_cons_of_pos _ hp, List.filter_cons_of_pos hp, List.head?_cons]
      · rw [List.find?_cons_of_neg _ hp, List.filter_cons_of_neg hp, ih]

theorem find?_reverse_of_filter_singleton (l : List (String × String))
    (x : String × String) (p : (String × String) → Bool) (h : l.filter p = [x]) :
    l.reverse.find? p = some x := by
  rw [find?_eq_head_of_filter, List.filter_reverse, h]
  rfl

/-! ### Claim theorems -/

/-- Claim C1: the package enumerator splits the query output on newline, skips
empty lines, splits each line on tab, silently discards lines with fewer
than two fields, and yields name = field 1, version = field 2, and the third
field split on single space as the declared config paths (per-line behaviour
captured by `specLineRecord`); the line `"foo\t1.0\t/etc/foo.conf /etc/foo2.conf\n"`
yields exactly the one expected record and the line `"bar\n"` yields none. -/
theorem package_enumerator_line_parsing :
    (∀ output : String,
        parsePackageLines output = (goSplit '\n' output).filterMap specLineRecord) ∧
    parsePackageLines "foo\t1.0\t/etc/foo.conf /etc/foo2.conf\n" =
      [{ name := "foo", version := "1.0",
         configFiles := ["/etc/foo.conf", "/etc/foo2.conf"], requiredPackages := [] }] ∧
    parsePackageLines "bar\n" = [] := by
  refine ⟨?_, by decide, by decide⟩
  intro output
  simpa using foldl_parseLineStep (goSplit '\n' output) []

/-- Claim C2: backend selection is a total, deterministic function of the
distribution ID using case-insensitive substring matching: IDs agreeing up
to case select the same backend, `"RHEL"`, `"rhel"` and `"Rhel"` all select
the RPM backend, any ID containing none of the rhel-family tokens defaults
to the Debian-style (`apt`) backend, and every input yields one of the two
backends (no error case). -/
theorem backend_selector_total_deterministic :
    ∀ s t : String,
      (strToLower s = strToLower t → NewPackageManager s = NewPackageManager t) ∧
      NewPackageManager "RHEL" = PkgType.rpm ∧
      NewPackageManager "rhel" = PkgType.rpm ∧
      NewPackageManager "Rhel" = PkgType.rpm ∧
      (goContains (strToLower s) "rhel" = false →
        goContains (strToLower s) "centos" = false →
        goContains (strToLower s) "fedora" = false →
        NewPackageManager s = PkgType.apt) ∧
      (NewPackageManager s = PkgType.rpm ∨ NewPackageManager s = PkgType.apt) := by
  intro s t
  refine ⟨?_, by decide, by decide, by decide, ?_, ?_⟩
  · intro h
    simp only [NewPackageManager, h]
  · intro h1 h2 h3
    simp [NewPackageManager, h1, h2, h3]
  · unfold NewPackageManager
    split
    · exact Or.inl rfl
    · exact Or.inr rfl

/-- Witness for C2 at concrete inputs: `"ubuntu"` contains no rhel-family
token and selects the Debian-style backend, and inputs agreeing up to case
select the same backend. -/
theorem backend_selector_total_deterministic_witness :
    NewPackageManager "ubuntu" = PkgType.apt ∧
    NewPackageManager "Rhel" = NewPackageManager "rHEL" := by
  constructor
  · exact (backend_selector_total_deterministic "ubuntu" "x").2.2.2.2.1
      (by decide) (by decide) (by decide)
  · exact (backend_selector_total_deterministic "Rhel" "rHEL").1 (by decide)

/-- Claim C5: the descriptor parser splits each line on the first `=`, trims
surrounding quotes from key and value and skips lines with no `=` (that is
the content of `osLineKV`/`osEntries`); looking up a key contributed by
exactly one line returns that line's value with quotes removed. -/
theorem descriptor_lookup_unique_key :
    ∀ (content k v : String),
      (osEntries content).filter (fun e => e.1 == k) = [(k, v)] →
      NewOSDetector content k = some v := by
  intro content k v h
  unfold NewOSDetector
  rw [foldl_osLineStep_lookup k (goSplit '\n' content) (fun _ => none)]
  have h2 : ((goSplit '\n' content).filterMap osLineKV).reverse.find?
      (fun e => e.1 == k) = some (k, v) := by
    apply find?_reverse_of_filter_singleton
    simpa [osEntries] using h
  rw [h2]

/-- Witness for C5: in `ID="ubuntu"\nNAME=Test`, the key `ID` appears once
and looking it up yields `ubuntu` with the quotes removed. -/
theorem descriptor_lookup_unique_key_witness :
    NewOSDetector "ID=\"ubuntu\"\nNAME=Test" "ID" = some "ubuntu" :=
  descriptor_lookup_unique_key "ID=\"ubuntu\"\nNAME=Test" "ID" "ubuntu" (by decide)

/-- Claim C10: a query line `"name\tversion\t"` with an empty third field yields a
record whose declared config paths are the one-element list containing the
empty string (not the empty list), the collector consequently attempts a
read of that empty path, and joining it onto the root directory gives `/`. -/
theorem empty_third_field_yields_empty_path :
    parsePackageLines "name\tversion\t" =
      [{ name := "name", version := "version", configFiles := [""],
         requiredPackages := [] }] ∧
    (∀ readF statF : Nat → String → Option String,
        (collectConfigs readF statF (parsePackageLines "name\tversion\t")).attempts = [""]) ∧
    goFilepathJoin "/" "" = "/" := by
  refine ⟨by decide, ?_, by decide⟩
  intro readF statF
  rw [collectConfigs_eq_foldl,
    show (parsePackageLines "name\tversion\t").flatMap Package.configFiles = [""] from
      by decide,
    foldl_collectStep_attempts]
  simp [initCollectState]

/-- Claim C3: with a successful package query the run always yields a
snapshot (per-path failures are never fatal), and independently: every
declared path whose read-plus-stat always fails is absent from the final
configurations mapping and produces a warning, and every declared path whose
read-plus-stat always succeeds appears in the mapping keyed by the original
declared path — each half under only its own hypotheses, so runs where all
declared paths fail, or all succeed, are covered. -/
theorem config_collector_skips_failures :
    ∀ (osRelease : String → Option String) (query : PkgType → Option String)
      (readF statF : Nat → String → Option String) (out : String),
      query (NewPackageManager ((osRelease "ID").getD "")) = some out →
      (GatherSystemInfo osRelease query readF statF).1.isSome = true ∧
      (∀ p : String, (∀ t, ReadConfigFile (readF t) (statF t) "/" p = none) →
        p ∈ (parsePackageLines out).flatMap Package.configFiles →
        ((GatherSystemInfo osRelease query readF statF).1.map fun info =>
            info.configurations p) = some none ∧
        ("Warning: couldn't read config " ++ p) ∈
          (GatherSystemInfo osRelease query readF statF).2) ∧
      (∀ (p : String) (c : ConfigFile),
        (∀ t, ReadConfigFile (readF t) (statF t) "/" p = some c) →
        p ∈ (parsePackageLines out).flatMap Package.configFiles →
        ((GatherSystemInfo osRelease query readF statF).1.map fun info =>
            info.configurations p) = some (some c)) := by
  intro osRelease query readF statF out hq
  have hG : GatherSystemInfo osRelease query readF statF =
      (some { osRelease := osRelease, packages := parsePackageLines out,
              configurations := (collectConfigs readF statF (parsePackageLines out)).configs },
       (collectConfigs readF statF (parsePackageLines out)).warnings) := by
    simp [GatherSystemInfo, GetInstalledPackages, hq]
  rw [hG]
  refine ⟨rfl, ?_, ?_⟩
  · intro p hfail hmem
    refine ⟨?_, ?_⟩
    · show some ((collectConfigs readF statF (parsePackageLines out)).configs p) = some none
      rw [collectConfigs_eq_foldl, foldl_collectStep_configs_fail readF statF p hfail]
      rfl
    · show ("Warning: couldn't read config " ++ p) ∈
        (collectConfigs readF statF (parsePackageLines out)).warnings
      rw [collectConfigs_eq_foldl]
      exact foldl_collectStep_warn readF statF p hfail _ _ hmem
  · intro p c hsucc hmem
    show some ((collectConfigs readF statF (parsePackageLines out)).configs p) =
      some (some c)
    rw [collectConfigs_eq_foldl,
      foldl_collectStep_configs_success_mem readF statF p c hsucc _ _ hmem]

/-- Witness for C3: one package declares `/etc/a` (which fails to read) and
`/etc/b` (which reads as `X` with mod time `T`); `/etc/a` is absent from the
mapping and warned about, `/etc/b` is present under its declared path. -/
theorem config_collector_skips_failures_witness :
    ((GatherSystemInfo (NewOSDetector "ID=ubuntu")
        (fun _ => some "pkg\t1\t/etc/a /etc/b\n")
        (fun _ q => if q = "/etc/b" then some "X" else none)
        (fun _ q => if q = "/etc/b" then some "T" else none)).1.map fun info =>
      info.configurations "/etc/a") = some none ∧
    ((GatherSystemInfo (NewOSDetector "ID=ubuntu")
        (fun _ => some "pkg\t1\t/etc/a /etc/b\n")
        (fun _ q => if q = "/etc/b" then some "X" else none)
        (fun _ q => if q = "/etc/b" then some "T" else none)).1.map fun info =>
      info.configurations "/etc/b") =
      some (some { path := "/etc/b", content := "X", modified := "T" }) ∧
    ("Warning: couldn't read config " ++ "/etc/a") ∈
      (GatherSystemInfo (NewOSDetector "ID=ubuntu")
        (fun _ => some "pkg\t1\t/etc/a /etc/b\n")
        (fun _ q => if q = "/etc/b" then some "X" else none)
        (fun _ q => if q = "/etc/b" then some "T" else none)).2 := by
  have T := config_collector_skips_failures (NewOSDetector "ID=ubuntu")
    (fun _ => some "pkg\t1\t/etc/a /etc/b\n")
    (fun _ q => if q = "/etc/b" then some "X" else none)
    (fun _ q => if q = "/etc/b" then some "T" else none)
    "pkg\t1\t/etc/a /etc/b\n" rfl
  exact ⟨(T.2.1 "/etc/a" (fun _ => rfl) (by decide)).1,
    T.2.2 "/etc/b" { path := "/etc/b", content := "X", modified := "T" }
      (fun _ => rfl) (by decide),
    (T.2.1 "/etc/a" (fun _ => rfl) (by decide)).2⟩

/-- Claim C4: in every snapshot produced by a successful run, every key present in
the configurations mapping is among the declared config paths of the
enumerated packages. -/
theorem snapshot_configurations_subset_declared :
    ∀ (osRelease : String → Option String) (query : PkgType → Option String)
      (readF statF : Nat → String → Option String) (info : SystemInfo) (q : String),
      (GatherSystemInfo osRelease query readF statF).1 = some info →
      (info.configurations q).isSome = true →
      q ∈ info.packages.flatMap Package.configFiles := by
  intro osRelease query readF statF info q hG hsome
  cases hq : query (NewPackageManager ((osRelease "ID").getD "")) with
  | none => simp [GatherSystemInfo, GetInstalledPackages, hq] at hG
  | some out =>
      simp only [GatherSystemInfo, GetInstalledPackages, hq, Option.some.injEq] at hG
      subst hG
      simp only at hsome ⊢
      rw [collectConfigs_eq_foldl] at hsome
      rcases foldl_collectStep_configs_some readF statF _ _ q hsome with h | h
      · exact h
      · simp [initCollectState] at h

/-- Witness for C4: a successful concrete run whose mapping contains
`/etc/a`, which is indeed a declared path. -/
theorem snapshot_configurations_subset_declared_witness :
    "/etc/a" ∈ (parsePackageLines "pkg\t1\t/etc/a\n").flatMap Package.configFiles :=
  snapshot_configurations_subset_declared (NewOSDetector "ID=ubuntu")
    (fun _ => some "pkg\t1\t/etc/a\n")
    (fun _ q => if q = "/etc/a" then some "x" else none) (fun _ _ => some "T")
    { osRelease := NewOSDetector "ID=ubuntu",
      packages := parsePackageLines "pkg\t1\t/etc/a\n",
      configurations := (collectConfigs
        (fun _ q => if q = "/etc/a" then some "x" else none) (fun _ _ => some "T")
        (parsePackageLines "pkg\t1\t/etc/a\n")).configs }
    "/etc/a" rfl (by decide)

/-- Claim C6: when the package query fails, enumeration returns no package list at
all, no configuration collection happens (the gather step yields no snapshot
and no warnings), and the run is fatal: the process prints the failure
message and exits with code 1. -/
theorem query_failure_fatal :
    ∀ (content : String) (query : PkgType → Option String)
      (readF statF : Nat → String → Option String) (marshal : SystemInfo → Option String),
      query (NewPackageManager ((NewOSDetector content "ID").getD "")) = none →
      GetInstalledPackages (NewPackageManager ((NewOSDetector content "ID").getD ""))
          query = none ∧
      GatherSystemInfo (NewOSDetector content) query readF statF = (none, []) ∧
      runMain (some content) query readF statF marshal =
        ([(OutChan.stdout, "Failed to gather system info")], 1) := by
  intro content query readF statF marshal hq
  refine ⟨?_, ?_, ?_⟩ <;>
    simp [runMain, GatherSystemInfo, GetInstalledPackages, hq]

/-- Witness for C6: a query oracle that always fails makes the concrete run
exit 1 with the failure message and no package list. -/
theorem query_failure_fatal_witness :
    GetInstalledPackages (NewPackageManager ((NewOSDetector "ID=ubuntu" "ID").getD ""))
        (fun _ => none) = none ∧
    GatherSystemInfo (NewOSDetector "ID=ubuntu") (fun _ => none) (fun _ _ => none)
        (fun _ _ => none) = (none, []) ∧
    runMain (some "ID=ubuntu") (fun _ => none) (fun _ _ => none) (fun _ _ => none)
        (fun _ => none) =
      ([(OutChan.stdout, "Failed to gather system info")], 1) :=
  query_failure_fatal "ID=ubuntu" (fun _ => none) (fun _ _ => none) (fun _ _ => none)
    (fun _ => none) rfl

/-- Claim C7: when the declared config paths of the enumerated packages decompose
as `pre ++ p :: post` with `p` not declared again in `post` (so this
occurrence of `p` belongs to the last package declaring it, in enumeration
order) and the read at that occurrence succeeds, the final mapping holds
exactly that last snapshot for `p` (last write wins; the mapping is a
function, so it has one entry per path). -/
theorem duplicate_path_last_write_wins :
    ∀ (readF statF : Nat → String → Option String) (pkgs : List Package)
      (p : String) (pre post : List String) (c : ConfigFile),
      pkgs.flatMap Package.configFiles = pre ++ p :: post →
      p ∉ post →
      ReadConfigFile (readF pre.length) (statF pre.length) "/" p = some c →
      (collectConfigs readF statF pkgs).configs p = some c := by
  intro readF statF pkgs p pre post c hflat hpost hread
  rw [collectConfigs_eq_foldl, hflat, List.foldl_append, List.foldl_cons,
    foldl_collectStep_configs_not_mem readF statF p post _ hpost]
  have ht : (pre.foldl (collectStep readF statF) initCollectState).time = pre.length := by
    rw [foldl_collectStep_time]
    simp [initCollectState]
  simp [collectStep, ht, hread]

/-- Witness for C7: two packages both declare `/c`; the read at invocation 1
(the second, last-in-order read) yields content `second`, and the final
mapping holds that snapshot. -/
theorem duplicate_path_last_write_wins_witness :
    (collectConfigs (fun t _ => some (if t = 1 then "second" else "first"))
        (fun _ _ => some "T")
        (parsePackageLines "a\t1\t/c\nb\t2\t/c\n")).configs "/c" =
      some { path := "/c", content := "second", modified := "T" } :=
  duplicate_path_last_write_wins (fun t _ => some (if t = 1 then "second" else "first"))
    (fun _ _ => some "T") (parsePackageLines "a\t1\t/c\nb\t2\t/c\n")
    "/c" ["/c"] [] { path := "/c", content := "second", modified := "T" }
    (by decide) (by decide) rfl

/-- Claim C8 counterexample: a concrete run with one skipped config file writes
both the diagnostic warning and the JSON snapshot document to the same
stream (`stdout`), so the warning is not on a stream separate from the one
carrying the JSON; the exit code is still 0. -/
theorem warning_stream_not_separate_counterexample :
    (runMain (some "ID=ubuntu") (fun _ => some "foo\t1.0\t/etc/a\n") (fun _ _ => none)
        (fun _ _ => none) (fun _ => some "JSONDOC")).1 =
      [(OutChan.stdout, "Warning: couldn't read config /etc/a"),
       (OutChan.stdout, "JSONDOC")] ∧
    (runMain (some "ID=ubuntu") (fun _ => some "foo\t1.0\t/etc/a\n") (fun _ _ => none)
        (fun _ _ => none) (fun _ => some "JSONDOC")).2 = 0 := by
  decide

/-- Claim C8 as amended: diagnostic warnings for skipped config files are written
to standard output — the same stream that carries the JSON snapshot
document, each warning preceding it — and emitting warnings does not affect
the exit code: a run whose query and serialization succeed exits 0 with the
JSON printed last, every message of the run going to standard output. -/
theorem warnings_on_stdout_exit_zero :
    ∀ (content : String) (query : PkgType → Option String)
      (readF statF : Nat → String → Option String) (marshal : SystemInfo → Option String)
      (info : SystemInfo) (js : String),
      (GatherSystemInfo (NewOSDetector content) query readF statF).1 = some info →
      marshal info = some js →
      (runMain (some content) query readF statF marshal).2 = 0 ∧
      (runMain (some content) query readF statF marshal).1 =
        ((GatherSystemInfo (NewOSDetector content) query readF statF).2.map
          fun w => (OutChan.stdout, w)) ++ [(OutChan.stdout, js)] ∧
      (∀ e ∈ (runMain (some content) query readF statF marshal).1,
        e.1 = OutChan.stdout) := by
  intro content query readF statF marshal info js hG hm
  rcases hpair : GatherSystemInfo (NewOSDetector content) query readF statF with ⟨g1, g2⟩
  rw [hpair] at hG
  simp only at hG
  subst hG
  have hrun : runMain (some content) query readF statF marshal =
      ((g2.map fun w => (OutChan.stdout, w)) ++ [(OutChan.stdout, js)], 0) := by
    simp [runMain, hpair, hm]
  refine ⟨by rw [hrun], by simp [hrun, hpair], ?_⟩
  intro e he
  rw [hrun] at he
  simp only [List.mem_append, List.mem_map, List.mem_singleton] at he
  rcases he with ⟨w, _, rfl⟩ | rfl <;> rfl

/-- Witness for C8 as amended: the concrete run with one warning exits 0. -/
theorem warnings_on_stdout_exit_zero_witness :
    (runMain (some "ID=ubuntu") (fun _ => some "foo\t1.0\t/etc/a\n") (fun _ _ => none)
        (fun _ _ => none) (fun _ => some "JSONDOC")).2 = 0 :=
  (warnings_on_stdout_exit_zero "ID=ubuntu" (fun _ => some "foo\t1.0\t/etc/a\n")
    (fun _ _ => none) (fun _ _ => none) (fun _ => some "JSONDOC")
    { osRelease := NewOSDetector "ID=ubuntu",
      packages := parsePackageLines "foo\t1.0\t/etc/a\n",
      configurations := (collectConfigs (fun _ _ => none) (fun _ _ => none)
        (parsePackageLines "foo\t1.0\t/etc/a\n")).configs }
    "JSONDOC" rfl rfl).1

/-- Claim C9: the pipeline is deterministic: with the same descriptor content, the
same query output, and filesystem oracles that agree (at every invocation
time) on every joined declared config path — in particular two runs over an
unchanged filesystem — the two runs produce identical output messages
(including the serialized JSON document with its modification-time strings)
and identical exit codes. -/
theorem pipeline_deterministic :
    ∀ (content : String) (query : PkgType → Option String)
      (readF₁ statF₁ readF₂ statF₂ : Nat → String → Option String)
      (marshal : SystemInfo → Option String),
      (∀ out, query (NewPackageManager ((NewOSDetector content "ID").getD "")) = some out →
        ∀ q ∈ (parsePackageLines out).flatMap Package.configFiles, ∀ t,
          readF₁ t (goFilepathJoin "/" q) = readF₂ t (goFilepathJoin "/" q) ∧
          statF₁ t (goFilepathJoin "/" q) = statF₂ t (goFilepathJoin "/" q)) →
      runMain (some content) query readF₁ statF₁ marshal =
        runMain (some content) query readF₂ statF₂ marshal := by
  intro content query readF₁ statF₁ readF₂ statF₂ marshal hagree
  cases hq : query (NewPackageManager ((NewOSDetector content "ID").getD "")) with
  | none => simp [runMain, GatherSystemInfo, GetInstalledPackages, hq]
  | some out =>
      have hc : collectConfigs readF₁ statF₁ (parsePackageLines out) =
          collectConfigs readF₂ statF₂ (parsePackageLines out) := by
        rw [collectConfigs_eq_foldl, collectConfigs_eq_foldl]
        exact foldl_collectStep_congr readF₁ statF₁ readF₂ statF₂ _ (hagree out hq) _
      simp [runMain, GatherSystemInfo, GetInstalledPackages, hq, hc]

/-- Witness for C9: two filesystem-oracle pairs that differ on undeclared
paths but agree on the joined declared path `/etc/a` make the two runs
byte-identical. -/
theorem pipeline_deterministic_witness :
    runMain (some "ID=ubuntu") (fun _ => some "pkg\t1\t/etc/a\n")
        (fun _ q => if q = "/etc/a" then some "X" else none) (fun _ _ => some "T")
        (fun _ => some "J") =
      runMain (some "ID=ubuntu") (fun _ => some "pkg\t1\t/etc/a\n")
        (fun _ q => if q = "/etc/a" then some "X" else some "other")
        (fun _ _ => some "T") (fun _ => some "J") :=
  pipeline_deterministic "ID=ubuntu" (fun _ => some "pkg\t1\t/etc/a\n")
    (fun _ q => if q = "/etc/a" then some "X" else none) (fun _ _ => some "T")
    (fun _ q => if q = "/etc/a" then some "X" else some "other") (fun _ _ => some "T")
    (fun _ => some "J")
    (by
      intro out hout q hq t
      obtain rfl : "pkg\t1\t/etc/a\n" = out := Option.some.inj hout
      rw [show (parsePackageLines "pkg\t1\t/etc/a\n").flatMap Package.configFiles =
        ["/etc/a"] from by decide] at hq
      obtain rfl : q = "/etc/a" := List.mem_singleton.mp hq
      exact ⟨rfl, rfl⟩)
